import Mathlib

/-!
Verification of the refresh engine of `src/dashboard.py`, a Streamlit
dashboard that periodically fetches quotes for a fixed catalog of financial
instruments.

Shallow embedding conventions:
- Python floats are modelled as rationals.
- A Python value that may be `None` is modelled as an `Option`.
- The yfinance quote source is an external collaborator; its behaviour on one
  call is an explicit `SourceOutcome` argument: either it returns the price
  history (the `Close` column rows, possibly empty) together with
  `info.get("previousClose", None)`, or it raises an exception, or the
  surrounding `asyncio.wait_for` times out.
- The global dict `prev_close_cache` is threaded explicitly as an association
  list; `fetch_single_price` returns the updated cache next to its quote.
- `asyncio.gather` returns results positionally in the order of its argument
  list, independently of task completion order; the completion order is kept
  as a parameter that the embedded `gather` does not consult.
-/

/-- Result of one fetch attempt: `fetch_single_price` returns the pair
`(current_price, change_percent)`, either component possibly `None`. -/
structure Quote where
  price : Option ℚ
  changePercent : Option ℚ
deriving DecidableEq

/-- Commodity group, src lines 16-26. -/
def commodities : List (String × String) :=
  [("금", "GC=F"), ("원유", "CL=F"), ("천연가스", "NG=F"), ("은", "SI=F"),
   ("구리", "HG=F"), ("백금", "PL=F"), ("옥수수", "ZC=F"), ("대두", "ZS=F"),
   ("밀", "ZW=F")]

/-- Spot index group, src lines 29-39. -/
def indices_spot : List (String × String) :=
  [("나스닥 (현물)", "^IXIC"), ("다우존스 (현물)", "^DJI"),
   ("S&P 500 (현물)", "^GSPC"), ("니케이 225 (현물)", "^N225"),
   ("FTSE 100 (영국)", "^FTSE"), ("DAX (독일)", "^GDAXI"),
   ("상해 종합 (중국)", "000001.SS"), ("코스피 (한국)", "^KS11"),
   ("코스닥 (한국)", "^KQ11")]

/-- Futures index group, src lines 41-45. -/
def indices_futures : List (String × String) :=
  [("나스닥 (선물)", "NQ=F"), ("다우존스 (선물)", "YM=F"),
   ("S&P 500 (선물)", "ES=F")]

/-- Forex group, src lines 48-54. -/
def forex_pairs : List (String × String) :=
  [("달러/유로", "EURUSD=X"), ("달러/엔", "JPY=X"), ("달러/파운드", "GBPUSD=X"),
   ("달러/위안", "CNY=X"), ("달러/원", "KRW=X")]

/-- US bond group, src lines 57-62. -/
def us_bonds : List (String × String) :=
  [("미국 단기 국채 (1년물)", "^IRX"), ("미국 중기 국채 (5년물)", "^FVX"),
   ("미국 장기 국채 (10년물)", "^TNX"), ("미국 초장기 국채 (30년물)", "^TYX")]

/-- Crypto group, src lines 65-75. -/
def crypto : List (String × String) :=
  [("비트코인", "BTC-USD"), ("이더리움", "ETH-USD"), ("리플", "XRP-USD"),
   ("솔라나", "SOL-USD"), ("바이낸스코인", "BNB-USD"), ("도지코인", "DOGE-USD"),
   ("에이다", "ADA-USD"), ("트론", "TRX-USD"), ("아발란체", "AVAX-USD")]

/-- The global `prev_close_cache` dict (src line 80), threaded explicitly.
An entry value of `none` models a cached Python `None` (no baseline known). -/
abbrev Cache := List (String × Option ℚ)

/-- Dictionary read, `prev_close_cache[ticker]`: `none` models a missing key,
`some v` models a present entry whose stored value is `v`. -/
def cacheGet (c : Cache) (s : String) : Option (Option ℚ) :=
  c.lookup s

/-- The guarded dictionary write of src lines 88-89:
`if ticker not in prev_close_cache: prev_close_cache[ticker] = v`.
A second write for a symbol that already has an entry is a no-op. -/
def cachePut (c : Cache) (s : String) (v : Option ℚ) : Cache :=
  if (c.lookup s).isSome then c else (s, v) :: c

/-- Rounding of `y` to the nearest integer with ties to even, the tie rule of
Python `round`. -/
def roundHalfEven (y : ℚ) : ℤ :=
  let n := ⌊y⌋
  let f := y - (n : ℚ)
  if f < 1/2 then n
  else if (1 : ℚ)/2 < f then n + 1
  else if n % 2 = 0 then n else n + 1

/-- Python `round(q, 2)` on the rational idealization of floats. -/
def pyRound2 (q : ℚ) : ℚ :=
  (roundHalfEven (q * 100) : ℚ) / 100

/-- Behaviour of the quote source and event loop on one
`fetch_single_price` call:
`ok closes previousClose` means `ticker_data.history(period="1d")` returned
rows whose `Close` column is `closes` and `ticker_data.info.get("previousClose",
None)` returned `previousClose`; `err` means some exception was raised inside
`fetch_data` (network, parse, missing symbol); `timeout` means
`asyncio.wait_for` raised `asyncio.TimeoutError`. -/
inductive SourceOutcome
  | ok (closes : List ℚ) (previousClose : Option ℚ)
  | err (msg : String)
  | timeout
deriving DecidableEq

/-- Embedding of `fetch_single_price` (src lines 82-108). The `try` block
wraps the whole body and `except asyncio.TimeoutError` together with
`except Exception` turn every quote-source failure and every timeout into the
return value `(None, None)`, so the embedded function is total: it returns a
plain `Cache × Quote`, never an error. On the successful source outcome the
body first fills the previous-close cache for a ticker not yet present
(src lines 88-89), reads the cached value back (line 90), and if the history
is non-empty computes the change percent from the last `Close` row
(lines 91-98); Python truthiness of `prev_close` makes both `None` and a zero
previous close disable the formula. -/
def fetch_single_price (outcome : SourceOutcome) (ticker : String)
    (cache : Cache) : Cache × Quote :=
  match outcome with
  | .ok closes previousClose =>
    let cache1 := cachePut cache ticker previousClose
    let prev : Option ℚ := (cacheGet cache1 ticker).join
    match closes.getLast? with
    | some currentPrice =>
      let changePercent : Option ℚ :=
        match prev with
        | some p => if p = 0 then none
            else some (pyRound2 (((currentPrice - p) / p) * 100))
        | none => none
      (cache1, ⟨some currentPrice, changePercent⟩)
    | none => (cache1, ⟨none, none⟩)
  | .err _ => (cache, ⟨none, none⟩)
  | .timeout => (cache, ⟨none, none⟩)

/-- Consecutive slices `tickers[i:i+bs]` for `i = 0, bs, 2*bs, ...`, the
iteration pattern of the loop `for i in range(0, len(tickers), batch_size)`
in src lines 115-116, for a positive step `bs`. -/
def chunks (bs : Nat) : List α → List (List α)
  | [] => []
  | x :: xs => (x :: xs.take (bs - 1)) :: chunks bs (xs.drop (bs - 1))
termination_by l => l.length
decreasing_by simp [List.length_drop]; omega

/-- Embedding of `asyncio.gather(*tasks)` over one batch (src line 118).
`gather` awaits every task of the batch and returns their results in the
positional order of the argument list; the wall-clock completion order of the
tasks, abstracted as `completesAt`, has no influence on the returned list.
`f` abstracts the quote produced by `fetch_single_price` for one ticker. -/
def gather (f : String → Quote) (completesAt : String → Nat)
    (batch : List String) : List Quote :=
  batch.map f

/-- Default `batch_size` of `fetch_all_prices`, src line 110. -/
def default_batch_size : Int := 5

/-- Default `timeout` of `fetch_single_price`, src line 82. -/
def default_timeout : Int := 10

/-- Embedding of `fetch_all_prices` (src lines 110-120). The tickers are the
dict values in insertion order; the loop header
`range(0, len(tickers), batch_size)` raises `ValueError` when the step is
zero, produces no iteration at all when the step is negative (so the result
stays `[]`), and otherwise walks the consecutive batches, extending `results`
with the gathered batch results. -/
def fetch_all_prices (f : String → Quote) (completesAt : String → Nat)
    (assets : List (String × String)) (batch_size : Int) :
    Except String (List Quote) :=
  let tickers := assets.map Prod.snd
  if batch_size = 0 then .error "ValueError: range() arg 3 must not be zero"
  else if batch_size < 0 then .ok []
  else .ok ((chunks batch_size.toNat tickers).map (gather f completesAt)).flatten

/-- One scheduling event inside a `fetch_all_prices` call: `spawn t` is the
creation of the task `fetch_single_price(t)` of the current batch, `joinTask t`
is the completion of the wait on that task inside `asyncio.gather`. -/
inductive FetchEvent
  | spawn (t : String)
  | joinTask (t : String)
deriving DecidableEq, BEq

/-- Scheduling events of one batch: all tasks of the batch are spawned
together, then `asyncio.gather` joins every one of them before the loop body
returns (src lines 117-118). -/
def chunkSched (c : List String) : List FetchEvent :=
  c.map FetchEvent.spawn ++ c.map FetchEvent.joinTask

/-- Scheduling events of a whole `fetch_all_prices` call: the batches run
strictly one after the other. A non-positive `batch_size` produces no fetch
event at all (zero raises before the first iteration, negative makes the
range empty). -/
def schedule (assets : List (String × String)) (batch_size : Int) :
    List FetchEvent :=
  if batch_size ≤ 0 then []
  else ((chunks batch_size.toNat (assets.map Prod.snd)).map chunkSched).flatten

/-- Concurrency charge of one scheduling event: a spawn opens one in-flight
fetch, a join closes one. -/
def charge : FetchEvent → ℤ
  | .spawn _ => 1
  | .joinTask _ => -1

/-- Number of in-flight fetches after a run of scheduling events. -/
def inFlight (tr : List FetchEvent) : ℤ :=
  (tr.map charge).sum

/-- One table cell as produced by `create_dataframe` (src lines 122-133),
abstracted from the HTML span markup to its visual content: a red value, a
steel-blue value, an uncolored value, or the literal fallback text
`"데이터 없음"` (no data). The printed value is kept as the exact rational;
the `.2f` and `.4f` décimal formatting is presentation of that value. -/
inductive Cell
  | red (v : ℚ)
  | blue (v : ℚ)
  | plain (v : ℚ)
  | noData
deriving DecidableEq

/-- The price column entry of one row, src line 127. The Python conditional
chain tests `change and change > 0`, then `change and change < 0` (both use
truthiness, so `None` and `0` fail them), then `price is not None`. In the
first two branches Python formats `price` with `:.2f`; if `price` were `None`
there, that raises `TypeError`, modelled by the result `none`. -/
def priceCell (price change : Option ℚ) : Option Cell :=
  match change with
  | some c =>
    if 0 < c then price.map Cell.red
    else if c < 0 then price.map Cell.blue
    else match price with
      | some p => some (Cell.plain p)
      | none => some Cell.noData
  | none =>
    match price with
    | some p => some (Cell.plain p)
    | none => some Cell.noData

/-- The change column entry of one row, src line 128: red for a positive
change, steel blue for a negative one, and the no-data text otherwise (the
branch conditions use Python truthiness, so a change of exactly zero also
falls to the no-data text). This cell never formats `price`, so it cannot
raise. -/
def changeCell (change : Option ℚ) : Cell :=
  match change with
  | some c =>
    if 0 < c then Cell.red c
    else if c < 0 then Cell.blue c
    else Cell.noData
  | none => Cell.noData

/-- One formatted row of the table: the asset display name, the price column
and the change column. -/
structure Row where
  asset : String
  priceCol : Option Cell
  changeCol : Cell
deriving DecidableEq

/-- Formatting of a single `(name, (price, change))` pair inside the list
comprehension of `create_dataframe`. -/
def renderRow (name : String) (q : Quote) : Row :=
  ⟨name, priceCell q.price q.changePercent, changeCell q.changePercent⟩

/-- Embedding of `create_dataframe` (src lines 122-133): one output row per
`zip(asset_names, data)` element, each computed from its own pair only.
Like Python `zip`, the result is truncated to the shorter input. -/
def create_dataframe (asset_names : List String) (data : List Quote) :
    List Row :=
  List.zipWith renderRow asset_names data

/-- Events of one iteration of the `while True` loop of `update_dashboard`
(src lines 226-263): awaiting `fetch_all_prices` for a group, pushing a
rendered table of a group to its placeholder, pushing the refresh timestamp,
and the final `asyncio.sleep`. Groups are identified by the name of the
source-level dict that defines them. -/
inductive CycleEvent
  | fetchGroup (g : String)
  | render (g : String)
  | renderTime
  | sleep (seconds : Nat)
deriving DecidableEq, BEq

/-- The six instrument groups in the order `update_dashboard` processes them
(src lines 230-235 and 238-255). -/
def groupNames : List String :=
  ["commodities", "indices_spot", "indices_futures", "forex_pairs",
   "us_bonds", "crypto"]

/-- The sleep interval between refresh cycles: the active code at src line
263 is `await asyncio.sleep(10)` (the comment on line 262 speaks of 5
seconds, but 10 is the value the code passes). -/
def refreshInterval : Nat := 10

/-- Event sequence of one iteration of the `while True` body of
`update_dashboard` (src lines 228-263): the six `fetch_all_prices` calls are
awaited one after the other first (lines 230-235), then the six tables are
re-rendered (lines 238-255), then the timestamp is rendered (lines 258-259),
then the loop sleeps (line 263). -/
def update_dashboard_cycle : List CycleEvent :=
  groupNames.map CycleEvent.fetchGroup ++ groupNames.map CycleEvent.render
    ++ [CycleEvent.renderTime, CycleEvent.sleep refreshInterval]

/-- Recognizer of sleep events. -/
def isSleep : CycleEvent → Bool
  | .sleep _ => true
  | _ => false

/-- Seconds one cycle event takes, given the duration `d g` of each group
fetch; pushing markup to a placeholder is not a suspension point and counts
zero. -/
def eventSeconds (d : String → Nat) : CycleEvent → Nat
  | .fetchGroup g => d g
  | .render _ => 0
  | .renderTime => 0
  | .sleep n => n

/-- Wall-clock length of one full cycle (work plus sleep): the separation of
two consecutive cycle starts, since the next iteration begins immediately
after the sleep. -/
def cycleSeconds (d : String → Nat) : Nat :=
  (update_dashboard_cycle.map (eventSeconds d)).sum

/-- The engine configuration surface named by the spec: catalog of groups,
batch size, per-fetch timeout and refresh interval. In the source all four
are hardcoded (the six dicts, 5, 10 and 10). -/
structure Config where
  catalog : List (String × List (String × String))
  batchSize : Int
  timeout : Int
  interval : Int
deriving DecidableEq

/-- The configuration the source actually runs with. -/
def defaultConfig : Config :=
  ⟨[("commodities", commodities), ("indices_spot", indices_spot),
    ("indices_futures", indices_futures), ("forex_pairs", forex_pairs),
    ("us_bonds", us_bonds), ("crypto", crypto)],
   default_batch_size, default_timeout, (refreshInterval : Int)⟩

/-- Degenerate configuration in the sense of the spec error taxonomy: empty
catalog or non-positive batch size, timeout or interval. -/
def degenerateConfig (c : Config) : Prop :=
  c.catalog = [] ∨ c.batchSize ≤ 0 ∨ c.timeout ≤ 0 ∨ c.interval ≤ 0

/-- What startup does: either it enters the refresh loop or it refuses to
start. -/
inductive StartupResult
  | entersLoop
  | refuses
deriving DecidableEq

/-- Embedding of `main` (src lines 266-267; the Lean name adds a qualifier
because a top-level `main` is reserved): the body is exactly
`asyncio.run(update_dashboard())` — there is no validation branch of any
kind, so startup enters the refresh loop whatever the configuration is. -/
def dashboard_main (_cfg : Config) : StartupResult :=
  .entersLoop

/-! ## Helper lemmas about the previous-close cache and rounding -/

lemma pyRound2_intCast (z : ℤ) : pyRound2 (z : ℚ) = z := by
  have h1 : ((z : ℚ) * 100) = ((z * 100 : ℤ) : ℚ) := by push_cast; ring
  simp only [pyRound2, roundHalfEven, h1, Int.floor_intCast]
  norm_num

lemma cacheGet_cachePut_preserved {c : Cache} {s2 : String} {w : Option ℚ}
    (h : cacheGet c s2 = some w) (s : String) (v : Option ℚ) :
    cacheGet (cachePut c s v) s2 = some w := by
  simp only [cacheGet, cachePut] at h ⊢
  by_cases hs : (c.lookup s).isSome
  · simpa [hs]
  · by_cases he : s2 = s
    · subst he
      rw [h] at hs
      simp at hs
    · have hbeq : (s2 == s) = false := beq_eq_false_iff_ne.mpr he
      simp [hs, List.lookup, hbeq, h]

lemma cacheGet_cachePut_fresh {c : Cache} {s : String} (h : cacheGet c s = none)
    (v : Option ℚ) : cacheGet (cachePut c s v) s = some v := by
  simp only [cacheGet, cachePut] at h ⊢
  simp [h, List.lookup]

/-! ## Claim theorems about the instrument fetcher -/

/-- C2: whenever the current price is known and the cached previous close for
the symbol is known and non-zero, the returned change percent is
`round(((price - prevClose) / prevClose) * 100, 2)`; whenever the cached
previous close is the absent value, the change percent is absent even though
the price is present. -/
theorem C2_change_percent_formula (cache : Cache) (t : String)
    (closes : List ℚ) (info : Option ℚ) (price p : ℚ)
    (hlast : closes.getLast? = some price) :
    (cacheGet (cachePut cache t info) t = some (some p) → p ≠ 0 →
      (fetch_single_price (.ok closes info) t cache).2 =
        ⟨some price, some (pyRound2 (((price - p) / p) * 100))⟩) ∧
    (cacheGet (cachePut cache t info) t = some none →
      (fetch_single_price (.ok closes info) t cache).2 = ⟨some price, none⟩) := by
  constructor
  · intro hc hp
    simp [fetch_single_price, hlast, hc, Option.join, hp]
  · intro hc
    simp [fetch_single_price, hlast, hc, Option.join]

theorem C2_change_percent_formula_witness :
    (fetch_single_price (.ok [110] (some 100)) "GC=F" []).2 =
      ⟨some 110, some 10⟩ ∧
    (fetch_single_price (.ok [95] (some 100)) "CL=F" []).2 =
      ⟨some 95, some (-5)⟩ ∧
    (fetch_single_price (.ok [110] none) "NG=F" []).2 = ⟨some 110, none⟩ := by
  refine ⟨?_, ?_, ?_⟩
  · rw [(C2_change_percent_formula [] "GC=F" [110] (some 100) 110 100 rfl).1
      (by decide) (by norm_num)]
    rw [show ((110 : ℚ) - 100) / 100 * 100 = ((10 : ℤ) : ℚ) by norm_num,
      pyRound2_intCast]
    norm_num
  · rw [(C2_change_percent_formula [] "CL=F" [95] (some 100) 95 100 rfl).1
      (by decide) (by norm_num)]
    rw [show ((95 : ℚ) - 100) / 100 * 100 = ((-5 : ℤ) : ℚ) by norm_num,
      pyRound2_intCast]
    norm_num
  · exact (C2_change_percent_formula [] "NG=F" [110] none 110 100 rfl).2
      (by decide)

/-- C3: the previous-close cache is monotonic. A second write for a symbol
that already has an entry is a no-op, so after writing `v1` and then `v2` a
read still returns `v1`, and a whole `fetch_single_price` call preserves every
previously recorded entry. -/
theorem C3_cache_monotonic (c : Cache) (s s2 t : String) (v1 v2 w : Option ℚ)
    (outcome : SourceOutcome) :
    cachePut (cachePut c s v1) s v2 = cachePut c s v1 ∧
    (cacheGet c s = none → cacheGet (cachePut c s v1) s = some v1) ∧
    (cacheGet c s2 = some w →
      cacheGet (fetch_single_price outcome t c).1 s2 = some w) := by
  refine ⟨?_, fun h => cacheGet_cachePut_fresh h v1, ?_⟩
  · unfold cachePut
    by_cases h : (c.lookup s).isSome
    · simp [h]
    · simp [h, List.lookup]
  · intro h
    cases outcome with
    | ok closes prev =>
      have hkeep := cacheGet_cachePut_preserved h t prev
      cases hl : closes.getLast? <;>
        simpa [fetch_single_price, hl] using hkeep
    | err m => simpa [fetch_single_price] using h
    | timeout => simpa [fetch_single_price] using h

theorem C3_cache_monotonic_witness :
    cachePut (cachePut [] "GC=F" (some 100)) "GC=F" (some 200) =
      cachePut [] "GC=F" (some 100) ∧
    cacheGet (cachePut [] "GC=F" (some 100)) "GC=F" = some (some 100) ∧
    cacheGet (fetch_single_price (.ok [110] (some 7)) "CL=F"
      [("GC=F", some 100)]).1 "GC=F" = some (some 100) := by
  have h := C3_cache_monotonic [] "GC=F" "GC=F" "CL=F" (some 100) (some 200)
    (some 100) (.ok [110] (some 7))
  have h2 := C3_cache_monotonic [("GC=F", some 100)] "GC=F" "GC=F" "CL=F"
    (some 100) (some 200) (some 100) (.ok [110] (some 7))
  exact ⟨h.1, h.2.1 (by decide), h2.2.2 (by decide)⟩

/-- C4: `fetch_single_price` is total with respect to quote-source failures:
every exception raised inside the fetch and every timeout of the underlying
call is caught and converted to the quote with both fields absent, with the
cache left as it was; nothing propagates to the batch scheduler. The embedded
function returns a plain pair rather than an error value precisely because the
`try` block of src lines 84-108 catches `asyncio.TimeoutError` and every
`Exception`. -/
theorem C4_failures_become_absent_quotes (msg t : String) (cache : Cache) :
    fetch_single_price (.err msg) t cache = (cache, ⟨none, none⟩) ∧
    fetch_single_price .timeout t cache = (cache, ⟨none, none⟩) :=
  ⟨rfl, rfl⟩

/-! ## Helper lemmas about batching -/

lemma chunks_nil (bs : Nat) : chunks bs ([] : List α) = [] := by
  simp [chunks]

lemma chunks_cons (bs : Nat) (x : α) (xs : List α) :
    chunks bs (x :: xs)
      = (x :: xs.take (bs - 1)) :: chunks bs (xs.drop (bs - 1)) := by
  simp [chunks]

lemma chunks_flatten_aux (bs : Nat) :
    ∀ (n : Nat) (l : List α), l.length ≤ n → (chunks bs l).flatten = l := by
  intro n
  induction n with
  | zero =>
    intro l h
    obtain rfl : l = [] := List.length_eq_zero.mp (Nat.le_zero.mp h)
    simp [chunks_nil]
  | succ n ih =>
    intro l h
    match l with
    | [] => simp [chunks_nil]
    | x :: xs =>
      simp only [List.length_cons] at h
      rw [chunks_cons, List.flatten_cons,
        ih (xs.drop (bs - 1)) (by simp [List.length_drop]; omega)]
      simp [List.take_append_drop]

lemma chunks_flatten (bs : Nat) (l : List α) : (chunks bs l).flatten = l :=
  chunks_flatten_aux bs l.length l le_rfl

lemma chunks_length_le_aux (bs : Nat) (hbs : 1 ≤ bs) :
    ∀ (n : Nat) (l : List α), l.length ≤ n →
      ∀ c ∈ chunks bs l, c.length ≤ bs := by
  intro n
  induction n with
  | zero =>
    intro l h
    obtain rfl : l = [] := List.length_eq_zero.mp (Nat.le_zero.mp h)
    simp [chunks_nil]
  | succ n ih =>
    intro l h c hc
    match l with
    | [] => simp [chunks_nil] at hc
    | x :: xs =>
      simp only [List.length_cons] at h
      rw [chunks_cons] at hc
      rcases List.mem_cons.mp hc with rfl | hmem
      · simp only [List.length_cons, List.length_take]
        omega
      · exact ih (xs.drop (bs - 1)) (by simp [List.length_drop]; omega) c hmem

lemma chunks_length_le (bs : Nat) (hbs : 1 ≤ bs) (l : List α) :
    ∀ c ∈ chunks bs l, c.length ≤ bs :=
  chunks_length_le_aux bs hbs l.length l le_rfl

lemma fetch_all_prices_pos (f : String → Quote) (cc : String → Nat)
    (assets : List (String × String)) (bs : Int) (hbs : 1 ≤ bs) :
    fetch_all_prices f cc assets bs = .ok ((assets.map Prod.snd).map f) := by
  unfold fetch_all_prices
  rw [if_neg (by omega), if_neg (by omega)]
  congr 1
  have : gather f cc = fun batch => batch.map f := rfl
  rw [this, ← List.map_flatten, chunks_flatten]

/-! ## Claim theorems about the batch scheduler -/

/-- C1: for every group and every batch size of at least 1, `fetch_all_prices`
returns one quote per symbol with the output order mirroring the input symbol
order at every index, independently of the completion order of the concurrent
fetches inside each batch. -/
theorem C1_order_preservation (f : String → Quote) (c1 c2 : String → Nat)
    (assets : List (String × String)) (bs : Int) (hbs : 1 ≤ bs) :
    fetch_all_prices f c1 assets bs = .ok ((assets.map Prod.snd).map f) ∧
    (∀ qs, fetch_all_prices f c1 assets bs = .ok qs →
      qs.length = assets.length ∧
      ∀ i : Nat, qs[i]? = ((assets.map Prod.snd)[i]?).map f) ∧
    fetch_all_prices f c1 assets bs = fetch_all_prices f c2 assets bs := by
  refine ⟨fetch_all_prices_pos f c1 assets bs hbs, ?_, ?_⟩
  · intro qs hqs
    rw [fetch_all_prices_pos f c1 assets bs hbs] at hqs
    obtain rfl : qs = (assets.map Prod.snd).map f := by
      cases hqs
      rfl
    constructor
    · simp
    · intro i
      simp [List.getElem?_map]
  · rw [fetch_all_prices_pos f c1 assets bs hbs,
      fetch_all_prices_pos f c2 assets bs hbs]

theorem C1_order_preservation_witness :
    fetch_all_prices
      (fun t => if t = "GC=F" then ⟨some 1, none⟩
        else if t = "CL=F" then ⟨some 2, none⟩ else ⟨some 3, none⟩)
      (fun _ => 0)
      [("금", "GC=F"), ("원유", "CL=F"), ("천연가스", "NG=F")] 2 =
      .ok [⟨some 1, none⟩, ⟨some 2, none⟩, ⟨some 3, none⟩] := by
  rw [(C1_order_preservation
      (fun t => if t = "GC=F" then ⟨some 1, none⟩
        else if t = "CL=F" then ⟨some 2, none⟩ else ⟨some 3, none⟩)
      (fun _ => 0) (fun _ => 1)
      [("금", "GC=F"), ("원유", "CL=F"), ("천연가스", "NG=F")] 2
      (by norm_num)).1]
  rfl

/-- C10: with a negative batch size the range of the batching loop is empty,
so for every non-empty group `fetch_all_prices` returns the empty list: no
fetch is attempted (the schedule has no event) and no error is raised, so the
length-preservation property fails there and holds only under the
precondition that the batch size is at least 1. -/
theorem C10_negative_batch_size_empty (f : String → Quote) (cc : String → Nat)
    (assets : List (String × String)) (bs : Int) (hbs : bs < 0)
    (hne : assets ≠ []) :
    fetch_all_prices f cc assets bs = .ok [] ∧
    schedule assets bs = [] ∧
    (0 : Nat) ≠ assets.length := by
  refine ⟨?_, ?_, ?_⟩
  · unfold fetch_all_prices
    rw [if_neg (by omega), if_pos hbs]
  · unfold schedule
    rw [if_pos (by omega)]
  · intro h
    exact hne (List.length_eq_zero.mp h.symm)

theorem C10_negative_batch_size_empty_witness :
    fetch_all_prices (fun _ => ⟨none, none⟩) (fun _ => 0)
      [("금", "GC=F")] (-1) = .ok [] ∧
    schedule [("금", "GC=F")] (-1) = [] ∧
    (0 : Nat) ≠ [("금", "GC=F")].length :=
  C10_negative_batch_size_empty (fun _ => ⟨none, none⟩) (fun _ => 0)
    [("금", "GC=F")] (-1) (by norm_num) (by simp)

/-! ## Claim theorems about startup configuration -/

/-- C6 counterexample: a degenerate configuration (batch size -1) on which
the engine still enters the refresh loop instead of refusing to start, and
`fetch_all_prices` still runs with that non-positive batch size, returning a
benign empty result rather than failing fatally. -/
theorem C6_counterexample :
    degenerateConfig { defaultConfig with batchSize := -1 } ∧
    dashboard_main { defaultConfig with batchSize := -1 } =
      StartupResult.entersLoop ∧
    fetch_all_prices (fun _ => ⟨none, none⟩) (fun _ => 0)
      [("원유", "CL=F")] (-1) = .ok [] :=
  ⟨Or.inr (Or.inl (by norm_num)), rfl, rfl⟩

/-- C6 amended: the engine performs no configuration validation at startup.
`main` unconditionally enters the refresh loop for every configuration,
including degenerate ones; `fetch_all_prices` invoked with a negative batch
size silently returns the empty list, and invoked with batch size zero raises
`ValueError` inside the cycle, not at startup. -/
theorem C6_amended_no_startup_validation (cfg : Config) (f : String → Quote)
    (cc : String → Nat) (assets : List (String × String)) (bs : Int)
    (hbs : bs < 0) :
    dashboard_main cfg = StartupResult.entersLoop ∧
    fetch_all_prices f cc assets bs = .ok [] ∧
    fetch_all_prices f cc assets 0 =
      .error "ValueError: range() arg 3 must not be zero" := by
  refine ⟨rfl, ?_, rfl⟩
  unfold fetch_all_prices
  rw [if_neg (by omega), if_pos hbs]

theorem C6_amended_no_startup_validation_witness :
    dashboard_main { defaultConfig with batchSize := -1 } =
      StartupResult.entersLoop ∧
    fetch_all_prices (fun _ => ⟨none, none⟩) (fun _ => 0)
      [("밀", "ZW=F")] (-1) = .ok [] ∧
    fetch_all_prices (fun _ => ⟨none, none⟩) (fun _ => 0)
      [("밀", "ZW=F")] 0 =
      .error "ValueError: range() arg 3 must not be zero" :=
  C6_amended_no_startup_validation { defaultConfig with batchSize := -1 }
    (fun _ => ⟨none, none⟩) (fun _ => 0) [("밀", "ZW=F")] (-1) (by norm_num)

/-! ## Helper lemmas about the fetch schedule -/

lemma inFlight_nil : inFlight [] = 0 := rfl

lemma inFlight_cons (e : FetchEvent) (tr : List FetchEvent) :
    inFlight (e :: tr) = charge e + inFlight tr := by
  simp [inFlight]

lemma inFlight_append (l r : List FetchEvent) :
    inFlight (l ++ r) = inFlight l + inFlight r := by
  simp [inFlight]

lemma inFlight_eq_length_of_spawns :
    ∀ {p : List FetchEvent}, (∀ e ∈ p, charge e = 1) →
      inFlight p = p.length := by
  intro p
  induction p with
  | nil => intro _; rfl
  | cons e es ih =>
    intro h
    rw [inFlight_cons, h e (List.mem_cons_self e es),
      ih fun d hd => h d (List.mem_cons_of_mem e hd)]
    simp only [List.length_cons]
    push_cast
    ring

lemma inFlight_eq_neg_length_of_joins :
    ∀ {p : List FetchEvent}, (∀ e ∈ p, charge e = -1) →
      inFlight p = -(p.length : ℤ) := by
  intro p
  induction p with
  | nil => intro _; rfl
  | cons e es ih =>
    intro h
    rw [inFlight_cons, h e (List.mem_cons_self e es),
      ih fun d hd => h d (List.mem_cons_of_mem e hd)]
    simp only [List.length_cons]
    push_cast
    ring

lemma inFlight_of_spawns (c : List String) :
    inFlight (c.map FetchEvent.spawn) = c.length := by
  rw [inFlight_eq_length_of_spawns, List.length_map]
  intro e he
  obtain ⟨s, _, rfl⟩ := List.mem_map.mp he
  rfl

lemma inFlight_chunkSched (c : List String) : inFlight (chunkSched c) = 0 := by
  rw [chunkSched, inFlight_append, inFlight_of_spawns,
    inFlight_eq_neg_length_of_joins, List.length_map]
  · ring
  · intro e he
    obtain ⟨s, _, rfl⟩ := List.mem_map.mp he
    rfl

lemma isPre_append_cases {α : Type} {p l r : List α} (h : p <+: l ++ r) :
    p <+: l ∨ ∃ q, q <+: r ∧ p = l ++ q := by
  induction l generalizing p with
  | nil =>
    refine Or.inr ⟨p, ?_, by simp⟩
    simpa using h
  | cons x xs ih =>
    match p with
    | [] => exact Or.inl ⟨x :: xs, by simp⟩
    | y :: ys =>
      obtain ⟨t, ht⟩ := h
      rw [List.cons_append, List.cons_append] at ht
      injection ht with h1 h2
      subst h1
      rcases ih ⟨t, h2⟩ with hp | ⟨q, hq, rfl⟩
      · left
        obtain ⟨u, hu⟩ := hp
        exact ⟨u, by simp [hu]⟩
      · right
        exact ⟨q, hq, by simp⟩

lemma inFlight_le_of_isPre_chunkSched {p : List FetchEvent} {c : List String}
    (h : p <+: chunkSched c) : inFlight p ≤ (c.length : ℤ) := by
  rcases isPre_append_cases h with hp | ⟨q, hq, rfl⟩
  · obtain ⟨t, ht⟩ := hp
    have hall : ∀ e ∈ p, charge e = 1 := by
      intro e he
      have : e ∈ c.map FetchEvent.spawn := by
        rw [← ht]
        exact List.mem_append_left t he
      obtain ⟨s, _, rfl⟩ := List.mem_map.mp this
      rfl
    have hlen : p.length ≤ c.length := by
      have := congrArg List.length ht
      simp at this
      omega
    rw [inFlight_eq_length_of_spawns hall]
    exact_mod_cast hlen
  · have hall : ∀ e ∈ q, charge e = -1 := by
      intro e he
      obtain ⟨t, ht⟩ := hq
      have : e ∈ c.map FetchEvent.joinTask := by
        rw [← ht]
        exact List.mem_append_left t he
      obtain ⟨s, _, rfl⟩ := List.mem_map.mp this
      rfl
    rw [inFlight_append, inFlight_of_spawns,
      inFlight_eq_neg_length_of_joins hall]
    omega

lemma inFlight_le_of_isPre_flatten (B : Nat) (cs : List (List String))
    (hc : ∀ c ∈ cs, c.length ≤ B) (p : List FetchEvent)
    (hp : p <+: (cs.map chunkSched).flatten) : inFlight p ≤ (B : ℤ) := by
  induction cs generalizing p with
  | nil =>
    obtain ⟨t, ht⟩ := hp
    obtain ⟨rfl, -⟩ := List.append_eq_nil.mp (by simpa using ht)
    simp [inFlight_nil]
  | cons c cs ih =>
    rw [List.map_cons, List.flatten_cons] at hp
    rcases isPre_append_cases hp with hp1 | ⟨q, hq, rfl⟩
    · have h1 := inFlight_le_of_isPre_chunkSched hp1
      have h2 : c.length ≤ B := hc c (List.mem_cons_self c cs)
      omega
    · rw [inFlight_append, inFlight_chunkSched]
      have := ih (fun d hd => hc d (List.mem_cons_of_mem c hd)) q hq
      omega

/-- C7: for every group and batch size of at least 1, `fetch_all_prices`
splits the symbol list into consecutive batches of at most `batch_size`
symbols whose concatenation is the original list; it processes the batches
strictly one after the other, spawning every fetch of the current batch
together and joining all of them (via `asyncio.gather`) before the next batch
starts, so along every prefix of the schedule the number of in-flight fetches
never exceeds `batch_size`. -/
theorem C7_sequential_batches_bounded_concurrency (f : String → Quote)
    (cc : String → Nat) (assets : List (String × String)) (bs : Int)
    (hbs : 1 ≤ bs) :
    (chunks bs.toNat (assets.map Prod.snd)).flatten = assets.map Prod.snd ∧
    (∀ c ∈ chunks bs.toNat (assets.map Prod.snd), c.length ≤ bs.toNat) ∧
    fetch_all_prices f cc assets bs =
      .ok (((chunks bs.toNat (assets.map Prod.snd)).map
        (gather f cc)).flatten) ∧
    schedule assets bs =
      ((chunks bs.toNat (assets.map Prod.snd)).map chunkSched).flatten ∧
    (∀ p, p <+: schedule assets bs → inFlight p ≤ bs) := by
  have hbn : 1 ≤ bs.toNat := by omega
  have hsched : schedule assets bs =
      ((chunks bs.toNat (assets.map Prod.snd)).map chunkSched).flatten := by
    unfold schedule
    rw [if_neg (by omega)]
  refine ⟨chunks_flatten bs.toNat (assets.map Prod.snd),
    chunks_length_le bs.toNat hbn (assets.map Prod.snd), ?_, hsched, ?_⟩
  · unfold fetch_all_prices
    rw [if_neg (by omega), if_neg (by omega)]
  · intro p hp
    rw [hsched] at hp
    have := inFlight_le_of_isPre_flatten bs.toNat _
      (chunks_length_le bs.toNat hbn (assets.map Prod.snd)) p hp
    omega

theorem C7_sequential_batches_bounded_concurrency_witness :
    (chunks (2 : Int).toNat
      ([("금", "GC=F"), ("원유", "CL=F"), ("천연가스", "NG=F")].map
        Prod.snd)).flatten =
      [("금", "GC=F"), ("원유", "CL=F"), ("천연가스", "NG=F")].map Prod.snd ∧
    chunkSched ["GC=F", "CL=F"] <+:
      schedule [("금", "GC=F"), ("원유", "CL=F"), ("천연가스", "NG=F")] 2 ∧
    inFlight (chunkSched ["GC=F", "CL=F"]) ≤ 2 := by
  refine ⟨(C7_sequential_batches_bounded_concurrency (fun _ => ⟨none, none⟩)
    (fun _ => 0) [("금", "GC=F"), ("원유", "CL=F"), ("천연가스", "NG=F")] 2
    (by norm_num)).1, ⟨chunkSched ["NG=F"],
      by simp [schedule, chunks_cons, chunks_nil, chunkSched]⟩, ?_⟩
  exact (C7_sequential_batches_bounded_concurrency (fun _ => ⟨none, none⟩)
    (fun _ => 0) [("금", "GC=F"), ("원유", "CL=F"), ("천연가스", "NG=F")] 2
    (by norm_num)).2.2.2.2 (chunkSched ["GC=F", "CL=F"])
    ⟨chunkSched ["NG=F"], by simp [schedule, chunks_cons, chunks_nil, chunkSched]⟩

/-! ## Claim theorems about the refresh loop and rendering -/

/-- C5 counterexample: the claim says each group is rendered before the next
group is fetched, but in the cycle of `update_dashboard` the fetch of the
second group (`indices_spot`, src line 231) comes before the render of the
first group (`commodities`, src lines 238-240): the render of the first group
does not precede the fetch of the second group. -/
theorem C5_counterexample :
    ¬ (update_dashboard_cycle.indexOf (CycleEvent.render "commodities") <
       update_dashboard_cycle.indexOf
         (CycleEvent.fetchGroup "indices_spot")) := by
  decide

/-- C5 amended: in every refresh cycle the loop first awaits the fetches of
all six groups in catalog order (src lines 230-235) and only afterwards
forwards each group's ordered quote list to the rendering boundary (src lines
238-255); every fetch of the cycle comes before every render, so the UI
updates all at once per cycle, not group by group. -/
theorem C5_amended_fetch_all_then_render_all :
    (update_dashboard_cycle.all fun e =>
      match e with
      | CycleEvent.fetchGroup g =>
        groupNames.all fun g2 =>
          decide (update_dashboard_cycle.indexOf (CycleEvent.fetchGroup g) <
            update_dashboard_cycle.indexOf (CycleEvent.render g2))
      | _ => true) = true := by
  decide

/-- C9: the loop sleeps a fixed 10 seconds between cycles (src line 263 —
`await asyncio.sleep(10)`, even though the comment on line 262 says 5): the
cycle contains exactly one sleep event, it is the last event of the cycle, and
whatever the fetch durations are, consecutive cycle starts are separated by at
least the 10-second interval and by more than 1 second — no jitter, no
busy-looping. -/
theorem C9_fixed_ten_second_sleep :
    refreshInterval = 10 ∧
    update_dashboard_cycle.filter isSleep = [CycleEvent.sleep 10] ∧
    update_dashboard_cycle.getLast? = some (CycleEvent.sleep 10) ∧
    (∀ d : String → Nat, refreshInterval ≤ cycleSeconds d ∧
      1 < cycleSeconds d) := by
    refine ⟨rfl, by decide, by decide, ?_⟩
    intro d
    have h : cycleSeconds d = d "commodities" + (d "indices_spot" +
        (d "indices_futures" + (d "forex_pairs" + (d "us_bonds" +
        (d "crypto" + 10))))) := by
      simp [cycleSeconds, update_dashboard_cycle, groupNames, eventSeconds,
        refreshInterval]
    constructor
    · rw [h]
      simp [refreshInterval]
      omega
    · omega

lemma zipWith_getElem_eq {α β γ : Type} (f : α → β → γ) :
    ∀ (as : List α) (bs : List β) (i : Nat) (a : α) (b : β),
      as[i]? = some a → bs[i]? = some b →
      (List.zipWith f as bs)[i]? = some (f a b) := by
  intro as
  induction as with
  | nil =>
    intro bs i a b ha _
    simp at ha
  | cons x xs ih =>
    intro bs i a b ha hb
    match bs, i with
    | [], _ => simp at hb
    | y :: ys, 0 =>
      simp only [List.getElem?_cons_zero, Option.some.injEq] at ha hb
      subst ha
      subst hb
      simp [List.zipWith]
    | y :: ys, (n + 1) =>
      simp only [List.getElem?_cons_succ] at ha hb
      simpa [List.zipWith] using ih ys n a b ha hb

/-- C8: for every row handed to the rendering boundary by the fetcher (so
with a change percent only when the price is present), the table shows the
price magnitude; the direction of the change is distinguished by color — red
for an increase, steel blue for a decrease, and an uncolored price with the
no-data text in the change column when unchanged; the price column shows the
explicit no-data marker exactly when the price is absent; and each row of the
rendered table is a function of its own `(name, quote)` pair only, so one
instrument with absent data cannot affect the other rows. -/
theorem C8_rendering_cues (asset_names : List String) (data : List Quote)
    (q : Quote) (name : String) (i : Nat)
    (hq : q.price = none → q.changePercent = none) :
    (priceCell q.price q.changePercent = some Cell.noData ↔
      q.price = none) ∧
    (∀ p c : ℚ, q.price = some p → q.changePercent = some c →
      priceCell q.price q.changePercent =
        some (if 0 < c then Cell.red p else if c < 0 then Cell.blue p
          else Cell.plain p) ∧
      changeCell q.changePercent =
        (if 0 < c then Cell.red c else if c < 0 then Cell.blue c
          else Cell.noData)) ∧
    (∀ p : ℚ, q.price = some p → q.changePercent = none →
      priceCell q.price q.changePercent = some (Cell.plain p) ∧
      changeCell q.changePercent = Cell.noData) ∧
    (asset_names[i]? = some name → data[i]? = some q →
      (create_dataframe asset_names data)[i]? = some (renderRow name q)) := by
  refine ⟨?_, ?_, ?_, ?_⟩
  · rcases hpr : q.price with - | p
    · simp [priceCell, hq hpr, hpr]
    · rcases hcp : q.changePercent with - | c
      · simp [priceCell, hcp]
      · simp only [priceCell]
        split_ifs <;> simp
  · intro p c hp hc
    rw [hp, hc]
    constructor
    · simp only [priceCell]
      split_ifs <;> simp
    · simp only [changeCell]
  · intro p hp hc
    rw [hp, hc]
    exact ⟨rfl, rfl⟩
  · intro hn hd
    exact zipWith_getElem_eq renderRow asset_names data i name q hn hd

theorem C8_rendering_cues_witness :
    (create_dataframe ["금", "원유"]
      [⟨some 110, some 10⟩, ⟨none, none⟩])[1]? =
      some ⟨"원유", some Cell.noData, Cell.noData⟩ ∧
    priceCell (some 110) (some 10) = some (Cell.red 110) ∧
    changeCell (some 10) = Cell.red 10 := by
  refine ⟨?_, ?_, ?_⟩
  · rw [(C8_rendering_cues ["금", "원유"]
      [⟨some 110, some 10⟩, ⟨none, none⟩] ⟨none, none⟩ "원유" 1
      (fun _ => rfl)).2.2.2 rfl rfl]
    rfl
  · have h := (C8_rendering_cues [] [] ⟨some 110, some 10⟩ "" 0
      (fun hx => nomatch hx)).2.1 110 10 rfl rfl
    rw [h.1]
    norm_num
  · have h := (C8_rendering_cues [] [] ⟨some 110, some 10⟩ "" 0
      (fun hx => nomatch hx)).2.1 110 10 rfl rfl
    rw [h.2]
    norm_num
